import Mathlib

/-!
Verification development for the RAG hallucination-correction pipeline.

The development shallowly embeds the decision logic of the repository:

* `src/core/rag_pipeline.py` — `rag_with_fact_checking`, the controller that
  retrieves evidence, generates an answer, and runs the bounded
  verification–correction loop;
* `src/verification/fact_checker.py` — `FactChecker`, the two-layer fact
  verification engine (rule-based checks plus a model-based semantic check);
* `src/correction/answer_corrector.py` — `correct_answer`;
* `src/llm/deepseek_client.py` — `llm_inference`.

External collaborators (the Chroma retriever, the DeepSeek transport inside
`LLMAdapter`, and the prompt builders) are modelled as oracle parameters:
the retrieval outcome is an `Except`-value, a transport call is an
`AdapterOutcome`, and the semantic-verification API call is an
`Option ApiResult` per round.  The `LLMAdapter` module itself is not part of
the repository sources; its observable interface (a `{text}` or `{error}`
dictionary, or a raised exception) is modelled from the specification of the
Answer Generator.  Python exceptions are modelled by `Except String`;
a raising computation is an `Except.error` carrying the exception text.

Strings are treated as sequences of characters (`List Char`); Python `\w`
(`re.UNICODE`) is modelled for ASCII word characters plus the CJK Unified
Ideographs block, which covers every text the repository manipulates.
Python floats are modelled by `ℚ`.
-/

/-- Python substring test over character lists: `needle in hay`. -/
def subList (needle : List Char) : List Char → Bool
  | [] => needle.isEmpty
  | c :: cs => needle.isPrefixOf (c :: cs) || subList needle cs

/-- Python `needle in hay` on strings. -/
def strContains (hay needle : String) : Bool :=
  subList needle.toList hay.toList

/-- Python `str.lower()` (ASCII case only; the CJK text has no case). -/
def pyLower (s : String) : String :=
  String.mk (s.toList.map Char.toLower)

/-- Python `str.strip()`: drop leading and trailing whitespace. -/
def pyStrip (s : String) : String :=
  String.mk (((s.toList.dropWhile Char.isWhitespace).reverse.dropWhile
    Char.isWhitespace).reverse)

/-- Python `str.split()` with no argument: split on whitespace runs,
discarding empty pieces. -/
def pySplitWhite (s : String) : List String :=
  ((s.toList.splitOnP Char.isWhitespace).map String.mk).filter (fun w => w ≠ "")

/-- Python `re.split(..)` / `str.split(sep)` on a set of single-character
separators, keeping empty pieces. -/
def pyResplit (seps : List Char) : List Char → List (List Char)
  | [] => [[]]
  | c :: cs =>
    let r := pyResplit seps cs
    if seps.contains c then [] :: r
    else
      match r with
      | [] => [[c]]
      | h :: t => (c :: h) :: t

/-- Word character for Python `\b` and `\w` (`re.UNICODE`): ASCII
alphanumerics, underscore, and CJK Unified Ideographs. -/
def isWordChar (c : Char) : Bool :=
  c.isAlphanum || c = '_' || (0x4E00 ≤ c.toNat && c.toNat ≤ 0x9FFF)

/-- Head of the remainder is a word boundary (end of string or a non-word
character). -/
def nonWordHead : List Char → Bool
  | [] => true
  | d :: _ => !isWordChar d

/-- Longest prefix satisfying `p` together with the remainder (the
`takeWhile`/`dropWhile` split used by the greedy regex runs). -/
def spanP (p : Char → Bool) : List Char → List Char × List Char
  | [] => ([], [])
  | c :: cs =>
    if p c then
      let r := spanP p cs
      (c :: r.1, r.2)
    else ([], c :: cs)

/-- Matches of `\b\d+\b` (pattern 1 of `number_patterns`): maximal digit
runs delimited by word boundaries.  `fuel` only bounds the recursion depth;
every recursive call consumes at least one character, so `fuel = l.length`
is always sufficient. -/
def scanInts (fuel : Nat) (prevWord : Bool) (l : List Char) : List String :=
  match fuel, l with
  | 0, _ => []
  | _, [] => []
  | fuel + 1, c :: cs =>
    if c.isDigit && !prevWord then
      let run := c :: (spanP Char.isDigit cs).1
      let rest := (spanP Char.isDigit cs).2
      (if nonWordHead rest then [String.mk run] else []) ++ scanInts fuel true rest
    else scanInts fuel (isWordChar c) cs

/-- The `\.\d+\b` tail of pattern `\b\d+\.\d+\b`: a dot, a nonempty digit
run, and the remainder. -/
def decimalTail : List Char → Option (List Char × List Char)
  | '.' :: r2 =>
    match r2 with
    | d :: _ =>
      if d.isDigit then some ((spanP Char.isDigit r2).1, (spanP Char.isDigit r2).2)
      else none
    | [] => none
  | _ => none

/-- Matches of `\b\d+\.\d+\b` (pattern 2 of `number_patterns`). -/
def scanDecimals (fuel : Nat) (prevWord : Bool) (l : List Char) : List String :=
  match fuel, l with
  | 0, _ => []
  | _, [] => []
  | fuel + 1, c :: cs =>
    if c.isDigit && !prevWord then
      let run := c :: (spanP Char.isDigit cs).1
      let rest := (spanP Char.isDigit cs).2
      match decimalTail rest with
      | some (frac, rest2) =>
        (if nonWordHead rest2 then [String.mk (run ++ '.' :: frac)] else []) ++
          scanDecimals fuel true rest2
      | none => scanDecimals fuel true rest
    else scanDecimals fuel (isWordChar c) cs

/-- Matches of `\b\d+%` (pattern 3 of `number_patterns`). -/
def scanPercents (fuel : Nat) (prevWord : Bool) (l : List Char) : List String :=
  match fuel, l with
  | 0, _ => []
  | _, [] => []
  | fuel + 1, c :: cs =>
    if c.isDigit && !prevWord then
      let run := c :: (spanP Char.isDigit cs).1
      match (spanP Char.isDigit cs).2 with
      | '%' :: r2 => String.mk (run ++ ['%']) :: scanPercents fuel false r2
      | rest => scanPercents fuel true rest
    else scanPercents fuel (isWordChar c) cs

/-- Matches of `\b\d+年\b` and `\b\d+月\b` (patterns 4 and 5 of
`number_patterns`), parameterized by the suffix character. -/
def scanDigitSuffix (suf : Char) (fuel : Nat) (prevWord : Bool) (l : List Char) :
    List String :=
  match fuel, l with
  | 0, _ => []
  | _, [] => []
  | fuel + 1, c :: cs =>
    if c.isDigit && !prevWord then
      let run := c :: (spanP Char.isDigit cs).1
      match (spanP Char.isDigit cs).2 with
      | d :: r2 =>
        if d = suf then
          (if nonWordHead r2 then [String.mk (run ++ [suf])] else []) ++
            scanDigitSuffix suf fuel true r2
        else scanDigitSuffix suf fuel true (d :: r2)
      | [] => []
    else scanDigitSuffix suf fuel (isWordChar c) cs

/-- One `\s+[A-Z][a-z]+` step of the capitalized-words pattern. -/
def capWordTail (l : List Char) : Option (List Char × List Char) :=
  match spanP Char.isWhitespace l with
  | ([], _) => none
  | (ws, rest) =>
    match rest with
    | u :: r1 =>
      if u.isUpper then
        match spanP Char.isLower r1 with
        | ([], _) => none
        | (lows, r2) => some (ws ++ u :: lows, r2)
      else none
    | [] => none

/-- Greedy `(?:\s+[A-Z][a-z]+)*` repetition. -/
def capWordStar (fuel : Nat) (acc : List Char) (l : List Char) :
    List Char × List Char :=
  match fuel with
  | 0 => (acc, l)
  | fuel + 1 =>
    match capWordTail l with
    | none => (acc, l)
    | some (seg, rest) => capWordStar fuel (acc ++ seg) rest

/-- Matches of `[A-Z][a-z]+(?:\s+[A-Z][a-z]+)*` (entity pattern 1). -/
def scanCapWords (fuel : Nat) (l : List Char) : List String :=
  match fuel, l with
  | 0, _ => []
  | _, [] => []
  | fuel + 1, c :: cs =>
    if c.isUpper then
      match spanP Char.isLower cs with
      | ([], _) => scanCapWords fuel cs
      | (lows, r1) =>
        let star := capWordStar r1.length [] r1
        String.mk (c :: lows ++ star.1) :: scanCapWords fuel star.2
    else scanCapWords fuel cs

/-- Matches of `\b[A-Z]{2,}\b` (entity pattern 2): maximal uppercase runs of
length at least two delimited by word boundaries. -/
def scanAcronyms (fuel : Nat) (prevWord : Bool) (l : List Char) : List String :=
  match fuel, l with
  | 0, _ => []
  | _, [] => []
  | fuel + 1, c :: cs =>
    if c.isUpper && !prevWord then
      let run := c :: (spanP Char.isUpper cs).1
      let rest := (spanP Char.isUpper cs).2
      (if 2 ≤ run.length && nonWordHead rest then [String.mk run] else []) ++
        scanAcronyms fuel true rest
    else scanAcronyms fuel (isWordChar c) cs

/-- The `@\w+\.\w+\b` tail of the e-mail pattern `\b\w+@\w+\.\w+\b`. -/
def emailTail : List Char → Option (List Char × List Char)
  | '@' :: r1 =>
    match spanP isWordChar r1 with
    | ([], _) => none
    | (w2, r2) =>
      match r2 with
      | '.' :: r3 =>
        match spanP isWordChar r3 with
        | ([], _) => none
        | (w3, r4) => some ('@' :: w2 ++ '.' :: w3, r4)
      | _ => none
  | _ => none

/-- Matches of `\b\w+@\w+\.\w+\b` (entity pattern 3). -/
def scanEmails (fuel : Nat) (prevWord : Bool) (l : List Char) : List String :=
  match fuel, l with
  | 0, _ => []
  | _, [] => []
  | fuel + 1, c :: cs =>
    if isWordChar c && !prevWord then
      let w1 := c :: (spanP isWordChar cs).1
      let rest := (spanP isWordChar cs).2
      match emailTail rest with
      | some (tailChars, rest2) =>
        String.mk (w1 ++ tailChars) :: scanEmails fuel true rest2
      | none => scanEmails fuel true rest
    else scanEmails fuel (isWordChar c) cs

/-- The literal `https?://` head of the URL pattern. -/
def urlHead (l : List Char) : Option (List Char × List Char) :=
  if "https://".toList.isPrefixOf l then
    some ("https://".toList, l.drop 8)
  else if "http://".toList.isPrefixOf l then
    some ("http://".toList, l.drop 7)
  else none

/-- Matches of `https?://[^\s]+` (entity pattern 4). -/
def scanUrls (fuel : Nat) (l : List Char) : List String :=
  match fuel, l with
  | 0, _ => []
  | _, [] => []
  | fuel + 1, c :: cs =>
    match urlHead (c :: cs) with
    | some (proto, rest1) =>
      match spanP (fun ch => !ch.isWhitespace) rest1 with
      | ([], _) => scanUrls fuel cs
      | (body, rest2) => String.mk (proto ++ body) :: scanUrls fuel rest2
    | none => scanUrls fuel cs

/-- Key information extracted from a text by
`FactChecker._extract_key_information`.  The `dates` list is also computed
by the Python code but is never read by any verification check, so it is
omitted here; likewise the unused `uncertainty_words` and
`negative_indicators` rule tables. -/
structure KeyInfo where
  numbers : List String
  entities : List String
  claims : List String
deriving DecidableEq

/-- `FactChecker._extract_key_information`: numbers via the five
`number_patterns`, entities via the four `entity_patterns`, and declarative
sentences (split on `。！？`, stripped, longer than 10 characters). -/
def extract_key_information (text : String) : KeyInfo :=
  let l := text.toList
  let numbers :=
    scanInts l.length false l ++
    scanDecimals l.length false l ++
    scanPercents l.length false l ++
    scanDigitSuffix '年' l.length false l ++
    scanDigitSuffix '月' l.length false l
  let entities :=
    scanCapWords l.length l ++
    scanAcronyms l.length false l ++
    scanEmails l.length false l ++
    scanUrls l.length l
  let claims :=
    (((pyResplit ['。', '！', '？'] l).map String.mk).map pyStrip).filter
      (fun s => 10 < s.length)
  { numbers := numbers, entities := entities, claims := claims }

/-- An evidence-chunk dictionary.  The Chroma retriever emits chunks whose
payload is under the key `content`; the specification's EvidenceChunk and
the corrector use the key `text`.  Either key may be absent, and
`chunk['content']` on a chunk without that key raises `KeyError`. -/
structure Chunk where
  content : Option String := none
  text : Option String := none
deriving DecidableEq

/-- Python `chunk['content']`: the value, or a raised `KeyError`. -/
def chunk_content (c : Chunk) : Except String String :=
  match c.content with
  | some s => Except.ok s
  | none => Except.error "KeyError: \x27content\x27"

/-- The inner loop of `FactChecker._verify_numbers`: how many chunks contain
the number verbatim.  Every chunk's `content` is read, so a chunk without
that key raises. -/
def count_contains (number : String) : List Chunk → Except String Nat
  | [] => Except.ok 0
  | c :: cs => do
    let content ← chunk_content c
    let rest ← count_contains number cs
    pure ((if strContains content number then 1 else 0) + rest)

/-- Issue text for an unsupported number. -/
def number_issue (n : String) : String :=
  "数字 \x27" ++ n ++ "\x27 在检索文档中未找到支持"

/-- `FactChecker._verify_numbers`: one issue per extracted number that no
evidence chunk contains verbatim. -/
def verify_numbers (numbers : List String) (chunks : List Chunk) :
    Except String (List String) :=
  match numbers with
  | [] => Except.ok []
  | n :: ns => do
    let found ← count_contains n chunks
    let rest ← verify_numbers ns chunks
    pure ((if found = 0 then [number_issue n] else []) ++ rest)

/-- The inner loop of `FactChecker._verify_entities`: case-insensitive
containment count. -/
def count_contains_ci (entity : String) : List Chunk → Except String Nat
  | [] => Except.ok 0
  | c :: cs => do
    let content ← chunk_content c
    let rest ← count_contains_ci entity cs
    pure ((if strContains (pyLower content) (pyLower entity) then 1 else 0) + rest)

/-- Issue text for an unsupported entity. -/
def entity_issue (e : String) : String :=
  "实体 \x27" ++ e ++ "\x27 在检索文档中未找到"

/-- `FactChecker._verify_entities`: entities of length at least two must
appear case-insensitively in some chunk. -/
def verify_entities (entities : List String) (chunks : List Chunk) :
    Except String (List String) :=
  match entities with
  | [] => Except.ok []
  | e :: es =>
    if e.length < 2 then verify_entities es chunks
    else do
      let found ← count_contains_ci e chunks
      let rest ← verify_entities es chunks
      pure ((if found = 0 then [entity_issue e] else []) ++ rest)

/-- The per-word loop of `FactChecker._verify_claims`: whether some chunk
contains the word (case-insensitively); the Python loop breaks on the first
hit, so chunks after the hit are not read. -/
def word_supported (word : String) : List Chunk → Except String Bool
  | [] => Except.ok false
  | c :: cs => do
    let content ← chunk_content c
    if strContains (pyLower content) (pyLower word) then pure true
    else word_supported word cs

/-- Support score of a claim: number of its words (of length at least two)
found in the evidence. -/
def support_score (words : List String) (chunks : List Chunk) :
    Except String Nat :=
  match words with
  | [] => Except.ok 0
  | w :: ws =>
    if w.length < 2 then support_score ws chunks
    else do
      let b ← word_supported w chunks
      let rest ← support_score ws chunks
      pure ((if b then 1 else 0) + rest)

/-- Python `f"{x:.2f}"` on a rational, used only inside issue text. -/
def formatTwoDecimals (q : ℚ) : String :=
  let n : ℤ := round (q * 100)
  toString (n / 100) ++ "." ++
    (if n % 100 < 10 then "0" ++ toString (n % 100) else toString (n % 100))

/-- Issue text for an under-supported claim sentence. -/
def claim_issue (claim : String) (frac : ℚ) : String :=
  "声明 \x27" ++ String.mk (claim.toList.take 50) ++ "...\x27 支持度不足 (" ++
    formatTwoDecimals frac ++ ")"

/-- `FactChecker._verify_claims`: a sentence whose supported-word fraction is
below 0.3 is an issue. -/
def verify_claims (claims : List String) (chunks : List Chunk) :
    Except String (List String) :=
  match claims with
  | [] => Except.ok []
  | claim :: rest =>
    if (pyStrip claim).length < 10 then verify_claims rest chunks
    else do
      let words := pySplitWhite claim
      let score ← support_score words chunks
      let frac : ℚ := (score : ℚ) / (max words.length 1 : ℚ)
      let tl ← verify_claims rest chunks
      pure ((if frac < 3/10 then [claim_issue claim frac] else []) ++ tl)

/-- Result of `FactChecker._basic_verification`: the issue list, the number
of checks performed (always the three rule-based checks), and the rule-based
confidence. -/
structure BasicResult where
  issues_found : List String
  checks_count : Nat
  confidence : ℚ
deriving DecidableEq

/-- `FactChecker._basic_verification`: run the number, entity and
claim-support checks, then
`confidence = max 0 (1 - issues/max(total_checks,1) * 0.3)`. -/
def basic_verification (key : KeyInfo) (chunks : List Chunk) :
    Except String BasicResult := do
  let number_issues ← verify_numbers key.numbers chunks
  let entity_issues ← verify_entities key.entities chunks
  let claim_issues ← verify_claims key.claims chunks
  let issues := number_issues ++ entity_issues ++ claim_issues
  let total_checks : Nat := 3
  pure { issues_found := issues,
         checks_count := total_checks,
         confidence :=
           max 0 (1 - ((issues.length : ℚ) / (max total_checks 1 : ℚ)) * (3/10)) }

/-- Parsed semantic-verification response
(`FactChecker._parse_api_response`); the free-text `reasoning` field is
dropped because nothing reads it. -/
structure ApiResult where
  is_consistent : Bool
  confidence : ℚ
deriving DecidableEq

/-- Base-10 value of a digit run (Python `float`/`int` of a digit string). -/
def digits_to_nat (l : List Char) : Nat :=
  l.foldl (fun acc c => acc * 10 + (c.toNat - 48)) 0

/-- First match of `0\.\d+|\d+\.\d+|\d+` in a line, parsed as a number:
the leftmost digit run, with its fractional part when a dot and more digits
follow. -/
def first_number : List Char → Option ℚ
  | [] => none
  | c :: cs =>
    if c.isDigit then
      let ip := c :: (spanP Char.isDigit cs).1
      let intVal : ℚ := (digits_to_nat ip : ℚ)
      match (spanP Char.isDigit cs).2 with
      | '.' :: r2 =>
        if (r2.headD ' ').isDigit then
          some (intVal +
            ((digits_to_nat (spanP Char.isDigit r2).1 : ℚ) /
              (10 : ℚ) ^ (spanP Char.isDigit r2).1.length))
        else some intVal
      | _ => some intVal
    else first_number cs

/-- One line of `FactChecker._parse_api_response`: threading the
`(confidence, is_consistent)` state through the parser's `if/elif` chain.
A parsed score greater than 1 is treated as a percentage and divided
by 100. -/
def parse_line (st : ℚ × Bool) (line0 : String) : ℚ × Bool :=
  let line := pyStrip line0
  if strContains line "一致性" &&
      (strContains line "评分" || strContains (pyLower line) "score") then
    match first_number line.toList with
    | some v => (if 1 < v then v / 100 else v, st.2)
    | none => st
  else if strContains line "一致" &&
      (strContains line "是" || strContains line "通过" || strContains line "正确") then
    (st.1, true)
  else if strContains line "不一致" || strContains line "错误" ||
      strContains line "不准确" then
    (st.1, false)
  else st

/-- `FactChecker._parse_api_response`: fold the line parser over the
response, starting from the neutral state (confidence 0.5, inconsistent);
the final consistency flag is flipped when confidence is at most 0.6. -/
def parse_api_response (content : String) : ApiResult :=
  let lines := (pyResplit ['\n'] content.toList).map String.mk
  let st := lines.foldl parse_line (1/2, false)
  { is_consistent := if 6/10 < st.1 then st.2 else !st.2, confidence := st.1 }

/-- Result of `FactChecker._semantic_verification`. -/
structure SemanticResult where
  semantic_issues : List String
  confidence : ℚ
deriving DecidableEq

/-- `FactChecker._build_semantic_verification_prompt` reads
`chunk['content']` for every chunk; the prompt text itself only feeds the
external model, so only the possible `KeyError` is modelled. -/
def build_semantic_prompt : List Chunk → Except String Unit
  | [] => Except.ok ()
  | c :: cs => do
    let _ ← chunk_content c
    build_semantic_prompt cs

/-- `FactChecker._semantic_verification`: build the prompt and consult the
external model (`api` is the outcome of `_call_deepseek_api`, which catches
its own transport errors and yields `none` on any failure).  Exceptions
inside this layer are caught and recorded as a semantic issue with neutral
confidence 0.5; an API failure likewise yields an issue and confidence
0.5. -/
def semantic_verification (chunks : List Chunk) (api : Option ApiResult) :
    SemanticResult :=
  match build_semantic_prompt chunks with
  | Except.error e =>
    { semantic_issues := ["语义验证执行失败: " ++ e], confidence := 1/2 }
  | Except.ok _ =>
    match api with
    | some r => { semantic_issues := [], confidence := r.confidence }
    | none =>
      { semantic_issues := ["API调用失败，无法完成语义验证"], confidence := 1/2 }

/-- `config.FACT_CHECK_CONFIG["hallucination_threshold"]` (config.py). -/
def hallucination_threshold : ℚ := 6/10

/-- The fields of `VerificationResult` that downstream code reads. -/
structure VerifyVerdict where
  has_hallucination : Bool
  confidence_score : ℚ
  error_descriptions : List String
  evidence_texts : List String
deriving DecidableEq

/-- The evidence-excerpt loop at the end of
`FactChecker._combine_verification_results`: each chunk's `content`
truncated to 200 characters (reading `chunk['content']` again, which may
raise). -/
def evidence_excerpts : List Chunk → Except String (List String)
  | [] => Except.ok []
  | c :: cs => do
    let content ← chunk_content c
    let rest ← evidence_excerpts cs
    pure ((if 200 < content.toList.length then
             String.mk (content.toList.take 200) ++ "..."
           else content) :: rest)

/-- `FactChecker._combine_verification_results`: weighted confidence
(rule-based 0.6, semantic 0.4) when the semantic layer ran, the union of the
issue lists, the pessimistic `has_hallucination` OR, and the truncated
evidence texts (which read `chunk['content']` again and may raise). -/
def combine_verification_results (basic : BasicResult)
    (semantic : Option SemanticResult) (chunks : List Chunk) :
    Except String VerifyVerdict := do
  let final_confidence : ℚ :=
    match semantic with
    | some s => basic.confidence * (6/10) + s.confidence * (4/10)
    | none => basic.confidence
  let all_issues := basic.issues_found ++
    (match semantic with
     | some s => s.semantic_issues
     | none => [])
  let has := !all_issues.isEmpty || decide (final_confidence < hallucination_threshold)
  let evidence ← evidence_excerpts chunks
  pure { has_hallucination := has,
         confidence_score := final_confidence,
         error_descriptions := all_issues,
         evidence_texts := evidence }

/-- `VerificationLevel` enumeration of the fact checker. -/
inductive VerificationLevel
  | basic
  | semantic
  | comprehensive
deriving DecidableEq

/-- `FactChecker.verify_answer`: extract key information, run the rule-based
layer (whose exceptions are not caught anywhere in the engine), run the
semantic layer when the level asks for it, and combine.  Returns the
`(has_hallucination, error_descriptions)` pair of the pipeline interface. -/
def checker_verify_answer (level : VerificationLevel) (answer : String)
    (chunks : List Chunk) (api : Option ApiResult) :
    Except String (Bool × List String) := do
  let key := extract_key_information answer
  let basic ← basic_verification key chunks
  let semantic :=
    if level = VerificationLevel.semantic || level = VerificationLevel.comprehensive
    then some (semantic_verification chunks api)
    else none
  let final ← combine_verification_results basic semantic chunks
  pure (final.has_hallucination, final.error_descriptions)

/-- Module-level `verify_answer` convenience function, as called by the
pipeline (default level `"comprehensive"`). -/
def verify_answer (answer : String) (chunks : List Chunk)
    (api : Option ApiResult) : Except String (Bool × List String) :=
  checker_verify_answer VerificationLevel.comprehensive answer chunks api

/-- Outcome of one `LLMAdapter.call` (modelled from the specification of the
Answer Generator, since the adapter module is not among the sources): a
`{text}` dictionary, an `{error}` dictionary with its `error_message`, or a
raised exception. -/
inductive AdapterOutcome
  | ok (text : String)
  | err (error_message : String)
  | raised (msg : String)
deriving DecidableEq

/-- `llm_inference` (src/llm/deepseek_client.py): never raises; an error
dictionary or an exception is converted into a fixed error string. -/
def llm_inference (outcome : AdapterOutcome) : String :=
  match outcome with
  | AdapterOutcome.ok t => t
  | AdapterOutcome.err m => "抱歉，生成回答时出现错误: LLM调用错误: " ++ m
  | AdapterOutcome.raised m => "系统错误: LLM推理过程异常: " ++ m

/-- `correct_answer` (src/correction/answer_corrector.py): builds the
correction prompt (query from chunk metadata, verification summary from the
errors, the fixed factual-query template) and returns exactly the
`llm_inference` response for it.  The prompt only feeds the external model,
so the answer, chunks and errors do not influence the returned value. -/
def correct_answer (_answer : String) (_chunks : List Chunk)
    (_errors : List String) (llm : AdapterOutcome) : String :=
  llm_inference llm

/-- One entry of the pipeline's `correction_history`. -/
structure CorrectionRecord where
  round : Nat
  errors : List String
  answer_before_correction : String
deriving DecidableEq

/-- The dictionary returned by `rag_with_fact_checking`
(`has_hallucination` models the `has_幻觉` key). -/
structure PipelineResult where
  final_answer : String
  initial_answer : String
  retrieved_chunks : List Chunk
  correction_history : List CorrectionRecord
  has_hallucination : Bool
  process_log : List String
deriving DecidableEq

/-- The initialised result dictionary of `rag_with_fact_checking`. -/
def initial_result : PipelineResult :=
  { final_answer := "", initial_answer := "", retrieved_chunks := [],
    correction_history := [], has_hallucination := false, process_log := [] }

/-- The `while correction_round < max_correction_rounds` loop of
`rag_with_fact_checking`, recursing on the remaining rounds.  Arguments
after the oracles: remaining rounds, current round counter, current answer,
current `has_幻觉`, history, log.  On success it returns the final answer,
flag, history, log and round counter; a raised exception inside the loop
(only `verify_answer` can raise here) is an `Except.error` carrying the
exception text and the log accumulated so far.  `get_correction_prompt` is
also called in the loop body but is a pure prompt builder whose output is
unused. -/
def correction_loop (chunks : List Chunk) (semApi : Nat → Option ApiResult)
    (corrLLM : Nat → AdapterOutcome) :
    Nat → Nat → String → Bool → List CorrectionRecord → List String →
    Except (String × List String)
      (String × Bool × List CorrectionRecord × List String × Nat)
  | 0, round, ans, has0, hist, log =>
    Except.ok (ans, has0, hist, log, round)
  | fuel + 1, round, ans, _, hist, log =>
    let log1 := log ++ ["第" ++ toString (round + 1) ++ "轮验证开始..."]
    match verify_answer ans chunks (semApi round) with
    | Except.error e => Except.error (e, log1)
    | Except.ok (has, errors) =>
      let log2 := log1 ++
        ["第" ++ toString (round + 1) ++ "轮验证完成，是否有幻觉：" ++ toString has]
      if has then
        let hist2 := hist ++
          [{ round := round + 1, errors := errors, answer_before_correction := ans }]
        let log3 := log2 ++ ["第" ++ toString (round + 1) ++ "轮纠正开始..."]
        let corrected := correct_answer ans chunks errors (corrLLM round)
        correction_loop chunks semApi corrLLM fuel (round + 1) corrected true hist2
          (log3 ++ ["第" ++ toString (round + 1) ++ "轮纠正完成"])
      else
        Except.ok (ans, false, hist, log2 ++ ["回答无幻觉，终止纠正流程"], round)

/-- The body of the `try` block of `rag_with_fact_checking`.  An
`Except.error` is an exception reaching the outer handler; it carries the
exception text, the result dictionary as updated so far and the process log
accumulated so far (the dictionary fields already assigned —
`retrieved_chunks`, `initial_answer` — keep their values). -/
def rag_body (retOutcome : Except String (List Chunk))
    (genLLM : AdapterOutcome) (semApi : Nat → Option ApiResult)
    (corrLLM : Nat → AdapterOutcome) (max_correction_rounds : Nat) :
    Except (String × PipelineResult × List String) PipelineResult :=
  let log0 := ["开始检索相关文档块..."]
  match retOutcome with
  | Except.error e => Except.error (e, initial_result, log0)
  | Except.ok retrieved_chunks =>
    let result1 := { initial_result with retrieved_chunks := retrieved_chunks }
    let log1 := log0 ++
      ["检索完成，返回" ++ toString retrieved_chunks.length ++ "个相关文档块"]
    if retrieved_chunks.isEmpty then
      Except.ok { result1 with
        final_answer := "抱歉，未找到相关信息，无法回答您的问题。",
        process_log := log1 ++ ["未检索到任何相关文档，无法生成回答"] }
    else
      let log2 := log1 ++ ["开始生成初步回答...", "初步回答Prompt生成完成"]
      let ia := llm_inference genLLM
      let result2 := { result1 with initial_answer := ia }
      let log3 := log2 ++ ["初步回答生成完成",
        "开始多轮验证与纠正（最大" ++ toString max_correction_rounds ++ "轮）..."]
      match correction_loop retrieved_chunks semApi corrLLM
          max_correction_rounds 0 ia false [] log3 with
      | Except.error (e, log) => Except.error (e, result2, log)
      | Except.ok (ans, has, hist, log, final_round) =>
        let log4 :=
          if decide (max_correction_rounds ≤ final_round) && has then
            log ++ ["已达最大纠正轮次（" ++ toString max_correction_rounds ++
              "轮），仍存在幻觉"]
          else log
        Except.ok { result2 with
          final_answer := ans,
          correction_history := hist,
          has_hallucination := has,
          process_log := log4 }

/-- `rag_with_fact_checking` (src/core/rag_pipeline.py): the `try` body with
the outer `except Exception` handler, which turns any exception into a
`系统出错` answer and a log entry on the result assembled so far. -/
def rag_with_fact_checking (retOutcome : Except String (List Chunk))
    (genLLM : AdapterOutcome) (semApi : Nat → Option ApiResult)
    (corrLLM : Nat → AdapterOutcome) (max_correction_rounds : Nat) :
    PipelineResult :=
  match rag_body retOutcome genLLM semApi corrLLM max_correction_rounds with
  | Except.ok r => r
  | Except.error (e, sofar, log) =>
    let error_msg := "流程执行出错：" ++ e
    { sofar with
      final_answer := "系统出错：" ++ error_msg,
      process_log := log ++ [error_msg] }

/-- Sample evidence chunk in the retriever's shape (`content` key). -/
def c768 : Chunk := { content := some "768" }

/-- Sample evidence chunk in the specification's EvidenceChunk shape
(`text` key, no `content` key). -/
def specChunk : Chunk := { text := some "768" }

deriving instance DecidableEq for Except

/-- Reduction of an `Except` bind on a success value. -/
theorem ok_bind {ε α β : Type} (a : α) (f : α → Except ε β) :
    (do let x ← Except.ok a; f x) = f a := rfl

/-- On chunks that all carry a `content` key, `count_contains` succeeds and
counts the chunks containing the number. -/
theorem count_contains_eq (n : String) :
    ∀ (chunks : List Chunk), (∀ c ∈ chunks, c.content.isSome) →
    count_contains n chunks =
      Except.ok (chunks.countP (fun c => strContains (c.content.getD "") n)) := by
  intro chunks
  induction chunks with
  | nil => intro _; rfl
  | cons c cs ih =>
    intro h
    obtain ⟨s, hs⟩ := Option.isSome_iff_exists.mp (h c (by simp))
    have hrec := ih (fun x hx => h x (by simp [hx]))
    simp only [count_contains, chunk_content, hs, hrec, ok_bind]
    simp [List.countP_cons, hs, Nat.add_comm, pure, Except.pure]

/-- On chunks that all carry a `content` key, `verify_numbers` produces
exactly one issue per extracted number that appears verbatim in no chunk,
in extraction order. -/
theorem verify_numbers_eq :
    ∀ (numbers : List String) (chunks : List Chunk),
    (∀ c ∈ chunks, c.content.isSome) →
    verify_numbers numbers chunks =
      Except.ok ((numbers.filter
        (fun n => chunks.all (fun c => !strContains (c.content.getD "") n))).map
          number_issue) := by
  intro numbers
  induction numbers with
  | nil => intro chunks _; rfl
  | cons n ns ih =>
    intro chunks h
    have hrec := ih chunks h
    have hiff : (chunks.all (fun c => !strContains (c.content.getD "") n) = true) ↔
        chunks.countP (fun c => strContains (c.content.getD "") n) = 0 := by
      rw [List.all_eq_true, List.countP_eq_zero]
      constructor <;> intro h1 a ha <;> simpa using h1 a ha
    simp only [verify_numbers, count_contains_eq n chunks h, hrec, ok_bind]
    by_cases hz : chunks.countP (fun c => strContains (c.content.getD "") n) = 0
    · have hall := hiff.mpr hz
      simp [hz, hall, pure, Except.pure]
    · have hall : chunks.all (fun c => !strContains (c.content.getD "") n) = false :=
        Bool.eq_false_iff.mpr (fun ht => hz (hiff.mp ht))
      simp [hz, hall, pure, Except.pure]

/-- A successful `Except` computation, as a Bool. -/
theorem exists_of_isOk {ε α : Type} {e : Except ε α} (h : e.isOk = true) :
    ∃ v, e = Except.ok v := by
  cases e with
  | ok v => exact ⟨v, rfl⟩
  | error _ => simp [Except.isOk, Except.toBool] at h

/-- On chunks with a `content` key, the entity check never raises. -/
theorem verify_entities_isOk :
    ∀ (entities : List String) (chunks : List Chunk),
    (∀ c ∈ chunks, c.content.isSome) →
    (verify_entities entities chunks).isOk = true := by
  have hcc : ∀ (e : String) (chunks : List Chunk),
      (∀ c ∈ chunks, c.content.isSome) →
      ∃ k, count_contains_ci e chunks = Except.ok k := by
    intro e chunks
    induction chunks with
    | nil => intro _; exact ⟨0, rfl⟩
    | cons c cs ih =>
      intro h
      obtain ⟨s, hs⟩ := Option.isSome_iff_exists.mp (h c (by simp))
      obtain ⟨k, hk⟩ := ih (fun x hx => h x (by simp [hx]))
      exact ⟨(if strContains (pyLower s) (pyLower e) then 1 else 0) + k,
        by simp [count_contains_ci, chunk_content, hs, hk, ok_bind, pure, Except.pure]⟩
  intro entities
  induction entities with
  | nil => intro chunks _; rfl
  | cons e es ih =>
    intro chunks h
    have htl := ih chunks h
    obtain ⟨tl, htl⟩ := exists_of_isOk htl
    by_cases hlen : e.length < 2
    · simp [verify_entities, hlen, htl, Except.isOk, Except.toBool]
    · obtain ⟨k, hk⟩ := hcc e chunks h
      simp [verify_entities, hlen, hk, htl, ok_bind, pure, Except.pure, Except.isOk, Except.toBool]

/-- On chunks with a `content` key, the claim-support check never raises. -/
theorem verify_claims_isOk :
    ∀ (claims : List String) (chunks : List Chunk),
    (∀ c ∈ chunks, c.content.isSome) →
    (verify_claims claims chunks).isOk = true := by
  have hws : ∀ (w : String) (chunks : List Chunk),
      (∀ c ∈ chunks, c.content.isSome) →
      ∃ b, word_supported w chunks = Except.ok b := by
    intro w chunks
    induction chunks with
    | nil => intro _; exact ⟨false, rfl⟩
    | cons c cs ih =>
      intro h
      obtain ⟨s, hs⟩ := Option.isSome_iff_exists.mp (h c (by simp))
      obtain ⟨b, hb⟩ := ih (fun x hx => h x (by simp [hx]))
      by_cases hkw : strContains (pyLower s) (pyLower w)
      · exact ⟨true, by simp [word_supported, chunk_content, hs, hkw, ok_bind, pure, Except.pure]⟩
      · exact ⟨b, by simp [word_supported, chunk_content, hs, hkw, hb, ok_bind, pure, Except.pure]⟩
  have hss : ∀ (ws : List String) (chunks : List Chunk),
      (∀ c ∈ chunks, c.content.isSome) →
      ∃ k, support_score ws chunks = Except.ok k := by
    intro ws chunks
    induction ws with
    | nil => intro _; exact ⟨0, rfl⟩
    | cons w ws ih =>
      intro h
      obtain ⟨k, hk⟩ := ih h
      by_cases hlen : w.length < 2
      · exact ⟨k, by simp [support_score, hlen, hk]⟩
      · obtain ⟨b, hb⟩ := hws w chunks h
        exact ⟨(if b then 1 else 0) + k,
          by simp [support_score, hlen, hb, hk, ok_bind, pure, Except.pure]⟩
  intro claims
  induction claims with
  | nil => intro chunks _; rfl
  | cons claim rest ih =>
    intro chunks h
    obtain ⟨tl, htl⟩ := exists_of_isOk (ih chunks h)
    by_cases hlen : (pyStrip claim).length < 10
    · simp [verify_claims, hlen, htl, Except.isOk, Except.toBool]
    · obtain ⟨k, hk⟩ := hss (pySplitWhite claim) chunks h
      simp [verify_claims, hlen, hk, htl, ok_bind, pure, Except.pure, Except.isOk, Except.toBool]

/-- On chunks with a `content` key, the rule-based layer never raises. -/
theorem basic_verification_isOk (key : KeyInfo) (chunks : List Chunk)
    (h : ∀ c ∈ chunks, c.content.isSome) :
    (basic_verification key chunks).isOk = true := by
  obtain ⟨es, hes⟩ := exists_of_isOk (verify_entities_isOk key.entities chunks h)
  obtain ⟨cs, hcs⟩ := exists_of_isOk (verify_claims_isOk key.claims chunks h)
  simp [basic_verification, verify_numbers_eq key.numbers chunks h, hes, hcs,
    ok_bind, pure, Except.pure, Except.isOk, Except.toBool]

/-- On chunks with a `content` key, building the evidence excerpts never
raises. -/
theorem evidence_excerpts_isOk :
    ∀ (cl : List Chunk), (∀ c ∈ cl, c.content.isSome) →
    (evidence_excerpts cl).isOk = true := by
  intro cl
  induction cl with
  | nil => intro _; rfl
  | cons c cs ih =>
    intro hh
    obtain ⟨s, hs⟩ := Option.isSome_iff_exists.mp (hh c (by simp))
    obtain ⟨ts, hts⟩ := exists_of_isOk (ih (fun x hx => hh x (by simp [hx])))
    simp [evidence_excerpts, chunk_content, hs, hts, ok_bind, pure, Except.pure,
      Except.isOk, Except.toBool]

/-- On chunks with a `content` key, combining never raises. -/
theorem combine_isOk (basic : BasicResult) (semantic : Option SemanticResult)
    (chunks : List Chunk) (h : ∀ c ∈ chunks, c.content.isSome) :
    (combine_verification_results basic semantic chunks).isOk = true := by
  obtain ⟨ts, hts⟩ := exists_of_isOk (evidence_excerpts_isOk chunks h)
  simp only [combine_verification_results, hts, ok_bind]
  rfl

/-- On chunks with a `content` key, the whole verification engine never
raises. -/
theorem verify_answer_isOk (answer : String) (chunks : List Chunk)
    (api : Option ApiResult) (h : ∀ c ∈ chunks, c.content.isSome) :
    (verify_answer answer chunks api).isOk = true := by
  obtain ⟨b, hb⟩ := exists_of_isOk
    (basic_verification_isOk (extract_key_information answer) chunks h)
  obtain ⟨v, hv⟩ := exists_of_isOk
    (combine_isOk b (some (semantic_verification chunks api)) chunks h)
  simp [verify_answer, checker_verify_answer, hb, hv, ok_bind, pure, Except.pure,
    Except.isOk, Except.toBool]

/-- Structure of a successful run of the correction loop: the history is
extended by exactly one record per completed round, the round counter grows
by the same amount and by at most the remaining budget, and when the budget
is exhausted with a correction in every round the returned flag is `true`
and the returned answer is the (unverified) output of the final
correction, whose input is the last history record. -/
theorem correction_loop_spec (chunks : List Chunk)
    (semApi : Nat → Option ApiResult) (corrLLM : Nat → AdapterOutcome) :
    ∀ (fuel round : Nat) (ans : String) (has0 : Bool)
      (hist : List CorrectionRecord) (log : List String)
      (ans2 : String) (has2 : Bool) (hist2 : List CorrectionRecord)
      (log2 : List String) (round2 : Nat),
    correction_loop chunks semApi corrLLM fuel round ans has0 hist log =
      Except.ok (ans2, has2, hist2, log2, round2) →
    ∃ k, round2 = round + k ∧ hist2.length = hist.length + k ∧ k ≤ fuel ∧
      hist <+: hist2 ∧
      (k = fuel → 0 < fuel → has2 = true ∧
        ∃ errs preAns,
          hist2.getLast? = some ⟨round2, errs, preAns⟩ ∧
          ans2 = correct_answer preAns chunks errs (corrLLM (round2 - 1))) := by
  intro fuel
  induction fuel with
  | zero =>
    intro round ans has0 hist log ans2 has2 hist2 log2 round2 h
    simp only [correction_loop, Except.ok.injEq, Prod.mk.injEq] at h
    obtain ⟨h1, h2, h3, h4, h5⟩ := h
    subst h1; subst h2; subst h3; subst h4; subst h5
    exact ⟨0, by omega, by omega, by omega, List.prefix_refl _, by omega⟩
  | succ fuel ih =>
    intro round ans has0 hist log ans2 has2 hist2 log2 round2 h
    simp only [correction_loop] at h
    cases hv : verify_answer ans chunks (semApi round) with
    | error e => rw [hv] at h; exact absurd h (by simp)
    | ok p =>
      rw [hv] at h
      obtain ⟨has, errors⟩ := p
      by_cases hhas : has = true
      · subst hhas
        simp only [if_true] at h
        have hrec := ih (round + 1)
          (correct_answer ans chunks errors (corrLLM round)) true
          (hist ++ [{ round := round + 1, errors := errors,
                      answer_before_correction := ans }]) _
          ans2 has2 hist2 log2 round2 h
        obtain ⟨k, hk1, hk2, hk3, hk4, hk5⟩ := hrec
        refine ⟨k + 1, by omega, by simp at hk2 ⊢; omega, by omega, ?_, ?_⟩
        · exact List.IsPrefix.trans (List.prefix_append _ _) hk4
        · intro hkf _
          have hkf2 : k = fuel := by omega
          by_cases hfz : 0 < fuel
          · exact hk5 hkf2 hfz
          · have hf0 : fuel = 0 := by omega
            subst hf0
            have hk0 : k = 0 := by omega
            subst hk0
            simp only [correction_loop, Except.ok.injEq, Prod.mk.injEq] at h
            obtain ⟨e1, e2, e3, e4, e5⟩ := h
            refine ⟨e2.symm, errors, ans, ?_, ?_⟩
            · rw [← e3, List.getLast?_concat]
              have h5 : round2 = round + 1 := by omega
              simp [h5]
            · rw [← e1]
              have h6 : round2 - 1 = round := by omega
              rw [h6]
      · rw [Bool.not_eq_true] at hhas
        subst hhas
        simp only [Bool.false_eq_true, if_false, Except.ok.injEq, Prod.mk.injEq] at h
        obtain ⟨e1, e2, e3, e4, e5⟩ := h
        subst e3; subst e5
        refine ⟨0, by omega, by omega, by omega, List.prefix_refl _, ?_⟩
        intro hkf hpos
        omega

/-- Evaluating `combine_verification_results` once the evidence excerpts are
known to succeed. -/
theorem combine_eq (basic : BasicResult) (semantic : Option SemanticResult)
    (chunks : List Chunk) (ts : List String)
    (hts : evidence_excerpts chunks = Except.ok ts) :
    combine_verification_results basic semantic chunks = Except.ok
      { has_hallucination :=
          !(basic.issues_found ++ (match semantic with
            | some s => s.semantic_issues
            | none => [])).isEmpty ||
          decide ((match semantic with
            | some s => basic.confidence * (6/10) + s.confidence * (4/10)
            | none => basic.confidence) < hallucination_threshold),
        confidence_score :=
          match semantic with
          | some s => basic.confidence * (6/10) + s.confidence * (4/10)
          | none => basic.confidence,
        error_descriptions := basic.issues_found ++ (match semantic with
          | some s => s.semantic_issues
          | none => []),
        evidence_texts := ts } := by
  unfold combine_verification_results
  rw [hts]
  rfl

/-- On chunks with a `content` key, the semantic-prompt builder never
raises. -/
theorem build_semantic_prompt_isOk :
    ∀ (chunks : List Chunk), (∀ c ∈ chunks, c.content.isSome) →
    build_semantic_prompt chunks = Except.ok () := by
  intro chunks
  induction chunks with
  | nil => intro _; rfl
  | cons c cs ih =>
    intro h
    obtain ⟨s, hs⟩ := Option.isSome_iff_exists.mp (h c (by simp))
    have := ih (fun x hx => h x (by simp [hx]))
    simp [build_semantic_prompt, chunk_content, hs, this, ok_bind]

/-- With a reachable prompt and a failed API call, the semantic layer
reports the fixed API-failure issue with neutral confidence. -/
theorem semantic_verification_none (chunks : List Chunk)
    (h : build_semantic_prompt chunks = Except.ok ()) :
    semantic_verification chunks none =
      { semantic_issues := ["API调用失败，无法完成语义验证"], confidence := 1/2 } := by
  unfold semantic_verification
  rw [h]

/-- A successful combination implies the evidence excerpts succeeded. -/
theorem combine_ok_inv (basic : BasicResult) (semantic : Option SemanticResult)
    (chunks : List Chunk) (v : VerifyVerdict)
    (h : combine_verification_results basic semantic chunks = Except.ok v) :
    ∃ ts, evidence_excerpts chunks = Except.ok ts := by
  cases hts : evidence_excerpts chunks with
  | ok ts => exact ⟨ts, rfl⟩
  | error e =>
    unfold combine_verification_results at h
    rw [hts] at h
    exact Except.noConfusion h

/-- The correction history of every pipeline result is bounded by the round
budget. -/
theorem rag_history_le (retOutcome : Except String (List Chunk))
    (genLLM : AdapterOutcome) (semApi : Nat → Option ApiResult)
    (corrLLM : Nat → AdapterOutcome) (maxR : Nat) :
    (rag_with_fact_checking retOutcome genLLM semApi corrLLM
      maxR).correction_history.length ≤ maxR := by
  cases retOutcome with
  | error e => simp [rag_with_fact_checking, rag_body, initial_result]
  | ok chunks =>
    cases hemp : chunks.isEmpty with
    | true => simp [rag_with_fact_checking, rag_body, hemp, initial_result]
    | false =>
      simp only [rag_with_fact_checking, rag_body, hemp, Bool.false_eq_true, if_false]
      cases hl : correction_loop chunks semApi corrLLM maxR 0
          (llm_inference genLLM) false []
          (["开始检索相关文档块..."] ++
            ["检索完成，返回" ++ toString chunks.length ++ "个相关文档块"] ++
            ["开始生成初步回答...", "初步回答Prompt生成完成"] ++
            ["初步回答生成完成",
             "开始多轮验证与纠正（最大" ++ toString maxR ++ "轮）..."]) with
      | error p =>
        obtain ⟨e, log⟩ := p
        simp [hl, initial_result]
      | ok q =>
        obtain ⟨ans, has, hist, log, r2⟩ := q
        obtain ⟨k, hk1, hk2, hk3, _, _⟩ :=
          correction_loop_spec chunks semApi corrLLM maxR 0
            (llm_inference genLLM) false [] _ ans has hist log r2 hl
        simp only [List.length_nil] at hk2
        simp only [hl]
        omega

/-- On every caught exception, the error payload of the pipeline body keeps
the default flag and history, and the handler only rewrites `final_answer`
and the log. -/
theorem rag_error_payload (retOutcome : Except String (List Chunk))
    (genLLM : AdapterOutcome) (semApi : Nat → Option ApiResult)
    (corrLLM : Nat → AdapterOutcome) (maxR : Nat)
    (e : String) (sofar : PipelineResult) (log : List String)
    (h : rag_body retOutcome genLLM semApi corrLLM maxR =
      Except.error (e, sofar, log)) :
    sofar.correction_history = [] ∧ sofar.has_hallucination = false ∧
    rag_with_fact_checking retOutcome genLLM semApi corrLLM maxR =
      { sofar with final_answer := "系统出错：" ++ ("流程执行出错：" ++ e),
                   process_log := log ++ ["流程执行出错：" ++ e] } := by
  have hfields : sofar.correction_history = [] ∧ sofar.has_hallucination = false := by
    cases retOutcome with
    | error e2 =>
      simp only [rag_body, Except.error.injEq, Prod.mk.injEq] at h
      obtain ⟨-, hs, -⟩ := h
      rw [← hs]
      exact ⟨rfl, rfl⟩
    | ok chunks =>
      cases hemp : chunks.isEmpty with
      | true => simp [rag_body, hemp] at h
      | false =>
        simp only [rag_body, hemp, Bool.false_eq_true, if_false] at h
        cases hl : correction_loop chunks semApi corrLLM maxR 0
            (llm_inference genLLM) false []
            (["开始检索相关文档块..."] ++
              ["检索完成，返回" ++ toString chunks.length ++ "个相关文档块"] ++
              ["开始生成初步回答...", "初步回答Prompt生成完成"] ++
              ["初步回答生成完成",
               "开始多轮验证与纠正（最大" ++ toString maxR ++ "轮）..."]) with
        | error p =>
          obtain ⟨e2, log2⟩ := p
          rw [hl] at h
          simp only [Except.error.injEq, Prod.mk.injEq] at h
          obtain ⟨-, hs, -⟩ := h
          rw [← hs]
          exact ⟨rfl, rfl⟩
        | ok q =>
          obtain ⟨ans, has, hist, logq, r2⟩ := q
          rw [hl] at h
          simp at h
  exact ⟨hfields.1, hfields.2, by simp [rag_with_fact_checking, h]⟩

/-- With the fact checker reachable (all chunks carry `content`) and a
corrector whose transport always raises with reason `m`, once the current
answer is the fixed degraded string it stays that string for the rest of
the loop: every later correction reproduces it. -/
theorem correction_loop_raised_const (chunks : List Chunk)
    (semApi : Nat → Option ApiResult) (m : String)
    (hcont : ∀ c ∈ chunks, c.content.isSome) :
    ∀ (fuel round : Nat) (hist : List CorrectionRecord) (log : List String),
    ∃ has2 hist2 log2 round2,
      correction_loop chunks semApi (fun _ => AdapterOutcome.raised m) fuel round
        ("系统错误: LLM推理过程异常: " ++ m) true hist log =
      Except.ok ("系统错误: LLM推理过程异常: " ++ m, has2, hist2, log2, round2) := by
  intro fuel
  induction fuel with
  | zero =>
    intro round hist log
    exact ⟨true, hist, log, round, rfl⟩
  | succ fuel ih =>
    intro round hist log
    obtain ⟨⟨b, errs⟩, hv⟩ := exists_of_isOk
      (verify_answer_isOk ("系统错误: LLM推理过程异常: " ++ m) chunks (semApi round) hcont)
    cases b with
    | false =>
      refine ⟨false, hist,
        log ++ ["第" ++ toString (round + 1) ++ "轮验证开始..."] ++
          ["第" ++ toString (round + 1) ++ "轮验证完成，是否有幻觉：" ++ toString false] ++
          ["回答无幻觉，终止纠正流程"], round, ?_⟩
      simp only [correction_loop, hv, Bool.false_eq_true, if_false]
    | true =>
      obtain ⟨has2, hist2, log2, round2, hrec⟩ := ih (round + 1)
        (hist ++ [{ round := round + 1, errors := errs,
                    answer_before_correction := "系统错误: LLM推理过程异常: " ++ m }]) _
      refine ⟨has2, hist2, log2, round2, ?_⟩
      simp only [correction_loop, hv, if_true]
      exact hrec

/-- Rule-based layer on answer `768` against evidence `768`: no issues,
confidence 1. -/
theorem basic_768_one : basic_verification (extract_key_information "768") [c768] =
    Except.ok { issues_found := [], checks_count := 3, confidence := 1 } := by
  have h0 : verify_numbers (extract_key_information "768").numbers [c768] =
      Except.ok [] := by decide
  have h1 : verify_entities (extract_key_information "768").entities [c768] =
      Except.ok [] := by decide
  have h2 : verify_claims (extract_key_information "768").claims [c768] =
      Except.ok [] := by decide
  simp only [basic_verification, h0, h1, h2, ok_bind]
  norm_num [pure, Except.pure]

theorem sem_768 : semantic_verification [c768] (some ⟨true, 1⟩) =
    { semantic_issues := [], confidence := 1 } := rfl

theorem ev_768 : evidence_excerpts [c768] = Except.ok ["768"] := rfl

theorem verify_768_clean :
    verify_answer "768" [c768] (some ⟨true, 1⟩) = Except.ok (false, []) := by
  simp only [verify_answer, checker_verify_answer, basic_768_one, ok_bind, sem_768]
  simp only [decide_True, Bool.or_true, if_true]
  rw [combine_eq _ _ _ _ ev_768]
  simp only [ok_bind, pure, Except.pure, Except.ok.injEq, Prod.mk.injEq]
  constructor
  · simp only [List.append_nil, List.isEmpty_nil, Bool.not_true, Bool.false_or]
    rw [decide_eq_false_iff_not]
    norm_num [hallucination_threshold]
  · rfl

theorem first_number_250 :
    first_number (pyStrip "一致性评分 250").toList = some ((250 : ℕ) : ℚ) := rfl

theorem parse_250 : parse_api_response "一致性评分 250" =
    { is_consistent := false, confidence := ((250 : ℕ) : ℚ) / 100 } := by
  have hline : parse_line (1/2, false) "一致性评分 250" =
      (((250 : ℕ) : ℚ) / 100, false) := by
    simp only [parse_line, first_number_250]
    simp +decide only []
    simp
  have hsplit : (pyResplit ['\n'] "一致性评分 250".toList).map String.mk =
      ["一致性评分 250"] := by decide
  simp only [parse_api_response, hsplit, List.foldl_cons, List.foldl_nil, hline]
  rw [if_pos (show (6 : ℚ) / 10 < ((250 : ℕ) : ℚ) / 100 by norm_num)]

theorem sem_250 : semantic_verification [c768]
    (some (parse_api_response "一致性评分 250")) =
    { semantic_issues := [], confidence := ((250 : ℕ) : ℚ) / 100 } := by
  unfold semantic_verification
  rw [show build_semantic_prompt [c768] = Except.ok () from rfl, parse_250]

theorem c7_chain :
    (basic_verification (extract_key_information "768") [c768]).bind
      (fun b => combine_verification_results b
        (some (semantic_verification [c768]
          (some (parse_api_response "一致性评分 250")))) [c768]) =
      Except.ok
        { has_hallucination :=
            !(([] : List String) ++ ([] : List String)).isEmpty ||
              decide ((1 : ℚ) * (6/10) + (((250 : ℕ) : ℚ) / 100) * (4/10) <
                hallucination_threshold),
          confidence_score := (1 : ℚ) * (6/10) + (((250 : ℕ) : ℚ) / 100) * (4/10),
          error_descriptions := [],
          evidence_texts := ["768"] } := by
  rw [sem_250, basic_768_one]
  rw [show ∀ (f : BasicResult → Except String VerifyVerdict),
      (Except.ok { issues_found := ([] : List String), checks_count := 3, confidence := (1:ℚ) }).bind f =
      f { issues_found := [], checks_count := 3, confidence := 1 } from fun _ => rfl]
  rw [combine_eq _ _ _ _ ev_768]
  rfl

theorem c7_conf : (1 : ℚ) * (6/10) + (((250 : ℕ) : ℚ) / 100) * (4/10) = 8/5 := by
  norm_num

/-- C1 counterexample: a run on a specification-shaped evidence chunk
(`text` key only).  The rule-based layer raises `KeyError` inside
`verify_answer`; the verdict of that round is never produced, the
verification-correction loop is aborted by the exception, and the returned
result carries `has_幻觉 = false` — refuting both halves of the claim for
rule-layer exceptions. -/
theorem verification_rule_layer_exception_cex :
    verify_answer "1024" [specChunk] none =
      Except.error "KeyError: \x27content\x27" ∧
    (rag_with_fact_checking (Except.ok [specChunk]) (AdapterOutcome.ok "1024")
      (fun _ => none) (fun _ => AdapterOutcome.ok "x") 2).has_hallucination = false ∧
    (rag_with_fact_checking (Except.ok [specChunk]) (AdapterOutcome.ok "1024")
      (fun _ => none) (fun _ => AdapterOutcome.ok "x") 2).correction_history = [] ∧
    (rag_with_fact_checking (Except.ok [specChunk]) (AdapterOutcome.ok "1024")
      (fun _ => none) (fun _ => AdapterOutcome.ok "x") 2).final_answer =
        "系统出错：流程执行出错：KeyError: \x27content\x27" := by
  refine ⟨by rfl, by decide, by decide, by decide⟩

/-- C1 (amended): only the semantic layer fails closed.  A failed semantic
API call yields a verdict with `has_issue = true` (fail-closed, loop
continues); an exception in the rule-based layer instead propagates out of
the Verification Engine, aborts the loop at the Controller's outer handler,
and produces a system-error result whose unresolved flag is `false`. -/
theorem verification_failure_fail_closed_split :
    (∀ (answer : String) (chunks : List Chunk),
      (∀ c ∈ chunks, c.content.isSome) →
      ∃ errs, verify_answer answer chunks none = Except.ok (true, errs) ∧
        "API调用失败，无法完成语义验证" ∈ errs) ∧
    (∀ (chunks : List Chunk) (genLLM : AdapterOutcome)
       (semApi : Nat → Option ApiResult) (corrLLM : Nat → AdapterOutcome)
       (maxR : Nat) (e : String),
      chunks.isEmpty = false → 0 < maxR →
      verify_answer (llm_inference genLLM) chunks (semApi 0) = Except.error e →
      (rag_with_fact_checking (Except.ok chunks) genLLM semApi corrLLM
        maxR).has_hallucination = false ∧
      (rag_with_fact_checking (Except.ok chunks) genLLM semApi corrLLM
        maxR).correction_history = [] ∧
      (rag_with_fact_checking (Except.ok chunks) genLLM semApi corrLLM
        maxR).final_answer = "系统出错：" ++ ("流程执行出错：" ++ e)) := by
  constructor
  · intro answer chunks h
    obtain ⟨b, hb⟩ := exists_of_isOk
      (basic_verification_isOk (extract_key_information answer) chunks h)
    obtain ⟨ts, hts⟩ := exists_of_isOk (evidence_excerpts_isOk chunks h)
    have hsem := semantic_verification_none chunks (build_semantic_prompt_isOk chunks h)
    refine ⟨b.issues_found ++ ["API调用失败，无法完成语义验证"], ?_, by simp⟩
    simp only [verify_answer, checker_verify_answer, hb, ok_bind, hsem,
      decide_True, Bool.or_true, if_true]
    rw [combine_eq _ _ _ _ hts]
    have hne : (b.issues_found ++ ["API调用失败，无法完成语义验证"]).isEmpty = false := by
      cases hbi : b.issues_found <;> simp
    simp only [ok_bind, pure, Except.pure, Except.ok.injEq, Prod.mk.injEq]
    refine ⟨?_, ?_⟩ <;> simp [hne]
  · intro chunks genLLM semApi corrLLM maxR e hemp hpos hv
    obtain ⟨fuel, rfl⟩ : ∃ f, maxR = f + 1 := ⟨maxR - 1, by omega⟩
    have hloop : ∀ log : List String,
        correction_loop chunks semApi corrLLM (fuel + 1) 0
          (llm_inference genLLM) false [] log =
        Except.error (e, log ++ ["第" ++ toString (0 + 1) ++ "轮验证开始..."]) := by
      intro log
      simp only [correction_loop, hv]
    simp only [rag_with_fact_checking, rag_body, hemp, Bool.false_eq_true,
      if_false, hloop]
    refine ⟨?_, ?_, ?_⟩ <;> first
    | rfl
    | trivial

/-- C1 witness: the fail-closed half at answer `1024` against a `content`
chunk, and the abort half at the specification-shaped chunk. -/
theorem verification_failure_fail_closed_split_witness :
    (∃ errs, verify_answer "1024" [c768] none = Except.ok (true, errs) ∧
      "API调用失败，无法完成语义验证" ∈ errs) ∧
    ((rag_with_fact_checking (Except.ok [specChunk]) (AdapterOutcome.ok "1024")
        (fun _ => none) (fun _ => AdapterOutcome.ok "x")
        1).has_hallucination = false ∧
      (rag_with_fact_checking (Except.ok [specChunk]) (AdapterOutcome.ok "1024")
        (fun _ => none) (fun _ => AdapterOutcome.ok "x")
        1).correction_history = [] ∧
      (rag_with_fact_checking (Except.ok [specChunk]) (AdapterOutcome.ok "1024")
        (fun _ => none) (fun _ => AdapterOutcome.ok "x")
        1).final_answer = "系统出错：" ++ ("流程执行出错：" ++ "KeyError: \x27content\x27")) :=
  ⟨verification_failure_fail_closed_split.1 "1024" [c768] (by decide),
   verification_failure_fail_closed_split.2 [specChunk] (AdapterOutcome.ok "1024")
     (fun _ => none) (fun _ => AdapterOutcome.ok "x") 1 "KeyError: \x27content\x27"
     (by decide) (by decide) (by decide)⟩

/-- C2 counterexample: with evidence `768`, initial answer `1024` (flagged),
one round, and a correction transport that raises `boom`, the final answer
is the LLM client's fixed error string; the initial answer is not retained —
it does not even occur in the final answer — refuting "final_answer equals
initial_answer plus a failure annotation". -/
theorem correction_failure_discards_answer_cex :
    (rag_with_fact_checking (Except.ok [c768]) (AdapterOutcome.ok "1024")
      (fun _ => some ⟨true, 1⟩) (fun _ => AdapterOutcome.raised "boom")
      1).initial_answer = "1024" ∧
    (rag_with_fact_checking (Except.ok [c768]) (AdapterOutcome.ok "1024")
      (fun _ => some ⟨true, 1⟩) (fun _ => AdapterOutcome.raised "boom")
      1).final_answer = "系统错误: LLM推理过程异常: boom" ∧
    strContains (rag_with_fact_checking (Except.ok [c768])
      (AdapterOutcome.ok "1024") (fun _ => some ⟨true, 1⟩)
      (fun _ => AdapterOutcome.raised "boom") 1).final_answer "1024" = false := by
  refine ⟨by decide, by decide, by decide⟩

/-- C2 (amended): when the correction transport raises in every round and
the first verification flags an issue, the final answer is the fixed
degraded string of the LLM client (replacing, not annotating, the original
answer), and the loop still terminates with at most `max_rounds` correction
records. -/
theorem correction_failure_degraded_answer_bounded
    (chunks : List Chunk) (genLLM : AdapterOutcome)
    (semApi : Nat → Option ApiResult) (m : String) (maxR : Nat)
    (errs0 : List String)
    (hcont : ∀ c ∈ chunks, c.content.isSome)
    (hemp : chunks.isEmpty = false) (hpos : 0 < maxR)
    (h0 : verify_answer (llm_inference genLLM) chunks (semApi 0) =
      Except.ok (true, errs0)) :
    (rag_with_fact_checking (Except.ok chunks) genLLM semApi
      (fun _ => AdapterOutcome.raised m) maxR).final_answer =
        "系统错误: LLM推理过程异常: " ++ m ∧
    (rag_with_fact_checking (Except.ok chunks) genLLM semApi
      (fun _ => AdapterOutcome.raised m) maxR).correction_history.length ≤ maxR := by
  refine ⟨?_, rag_history_le _ _ _ _ _⟩
  obtain ⟨fuel, rfl⟩ : ∃ f, maxR = f + 1 := ⟨maxR - 1, by omega⟩
  have hfull : ∀ log : List String,
      ∃ has2 hist2 log2 round2,
      correction_loop chunks semApi (fun _ => AdapterOutcome.raised m) (fuel + 1) 0
        (llm_inference genLLM) false [] log =
      Except.ok ("系统错误: LLM推理过程异常: " ++ m, has2, hist2, log2, round2) := by
    intro log
    obtain ⟨has2, hist2, log2, round2, hrec⟩ :=
      correction_loop_raised_const chunks semApi m hcont fuel 1
        [{ round := 0 + 1, errors := errs0,
           answer_before_correction := llm_inference genLLM }]
        ((((log ++ ["第1轮验证开始..."]) ++ ["第1轮验证完成，是否有幻觉：true"]) ++
          ["第1轮纠正开始..."]) ++ ["第1轮纠正完成"])
    refine ⟨has2, hist2, log2, round2, ?_⟩
    simp only [correction_loop, h0, if_true]
    exact hrec
  obtain ⟨has2, hist2, log2, round2, hl⟩ := hfull
    (["开始检索相关文档块..."] ++
      ["检索完成，返回" ++ toString chunks.length ++ "个相关文档块"] ++
      ["开始生成初步回答...", "初步回答Prompt生成完成"] ++
      ["初步回答生成完成",
       "开始多轮验证与纠正（最大" ++ toString (fuel + 1) ++ "轮）..."])
  simp only [rag_with_fact_checking, rag_body, hemp, Bool.false_eq_true, if_false, hl]

/-- C2 witness: the bounded-degradation theorem at the concrete failing
run of the counterexample. -/
theorem correction_failure_degraded_answer_bounded_witness :
    (rag_with_fact_checking (Except.ok [c768]) (AdapterOutcome.ok "1024")
      (fun _ => some ⟨true, 1⟩) (fun _ => AdapterOutcome.raised "boom")
      1).final_answer = "系统错误: LLM推理过程异常: " ++ "boom" ∧
    (rag_with_fact_checking (Except.ok [c768]) (AdapterOutcome.ok "1024")
      (fun _ => some ⟨true, 1⟩) (fun _ => AdapterOutcome.raised "boom")
      1).correction_history.length ≤ 1 :=
  correction_failure_degraded_answer_bounded [c768] (AdapterOutcome.ok "1024")
    (fun _ => some ⟨true, 1⟩) "boom" 1 [number_issue "1024"]
    (by decide) (by decide) (by decide) (by decide)

/-- C3 counterexample: one round, initial answer `1024` (flagged), the
corrector returns `768`, which the evidence fully supports.  The pipeline
reports `has_幻觉 = true` although re-verifying the returned final answer
yields a clean verdict — so the answer of the final correction round is not
re-verified and the reported flag is not the verdict on it. -/
theorem final_correction_round_not_reverified_cex :
    (rag_with_fact_checking (Except.ok [c768]) (AdapterOutcome.ok "1024")
      (fun _ => some ⟨true, 1⟩) (fun _ => AdapterOutcome.ok "768")
      1).has_hallucination = true ∧
    (rag_with_fact_checking (Except.ok [c768]) (AdapterOutcome.ok "1024")
      (fun _ => some ⟨true, 1⟩) (fun _ => AdapterOutcome.ok "768")
      1).final_answer = "768" ∧
    verify_answer "768" [c768] (some ⟨true, 1⟩) = Except.ok (false, []) := by
  refine ⟨by decide, by decide, verify_768_clean⟩

/-- C3 (amended): every completed correction round except the last is
followed by a verification pass; when the loop exhausts `max_rounds` (one
history record per round), the unresolved flag is the verdict on the answer
that entered the final correction — hence `true` — and the returned final
answer is the output of that final correction, returned without
re-verification. -/
theorem flag_is_verdict_before_final_correction
    (retOutcome : Except String (List Chunk)) (genLLM : AdapterOutcome)
    (semApi : Nat → Option ApiResult) (corrLLM : Nat → AdapterOutcome)
    (maxR : Nat) (r : PipelineResult)
    (hok : rag_body retOutcome genLLM semApi corrLLM maxR = Except.ok r)
    (hlen : r.correction_history.length = maxR) (hpos : 0 < maxR) :
    r.has_hallucination = true ∧
    ∃ rec : CorrectionRecord, r.correction_history.getLast? = some rec ∧
      rec.round = maxR ∧
      r.final_answer = correct_answer rec.answer_before_correction
        r.retrieved_chunks rec.errors (corrLLM (maxR - 1)) := by
  cases retOutcome with
  | error e => simp [rag_body] at hok
  | ok chunks =>
    cases hemp : chunks.isEmpty with
    | true =>
      rw [rag_body] at hok
      simp only [hemp, if_true] at hok
      simp only [Except.ok.injEq] at hok
      rw [← hok] at hlen
      simp [initial_result] at hlen
      omega
    | false =>
      simp only [rag_body, hemp, Bool.false_eq_true, if_false] at hok
      cases hl : correction_loop chunks semApi corrLLM maxR 0
          (llm_inference genLLM) false []
          (["开始检索相关文档块..."] ++
            ["检索完成，返回" ++ toString chunks.length ++ "个相关文档块"] ++
            ["开始生成初步回答...", "初步回答Prompt生成完成"] ++
            ["初步回答生成完成",
             "开始多轮验证与纠正（最大" ++ toString maxR ++ "轮）..."]) with
      | error p =>
        obtain ⟨e2, log2⟩ := p
        rw [hl] at hok
        simp at hok
      | ok q =>
        obtain ⟨ans, has, hist, logq, r2⟩ := q
        rw [hl] at hok
        simp only [Except.ok.injEq] at hok
        obtain ⟨k, hk1, hk2, hk3, -, hk5⟩ :=
          correction_loop_spec chunks semApi corrLLM maxR 0
            (llm_inference genLLM) false [] _ ans has hist logq r2 hl
        simp only [List.length_nil] at hk2
        have hrh : r.correction_history = hist := by rw [← hok]
        have hrf : r.final_answer = ans := by rw [← hok]
        have hrc : r.retrieved_chunks = chunks := by rw [← hok]
        have hrb : r.has_hallucination = has := by rw [← hok]
        have hkm : k = maxR := by
          rw [hrh] at hlen
          omega
        obtain ⟨hhas, errs, preAns, hlast, hans⟩ := hk5 (by omega) (by omega)
        refine ⟨by rw [hrb, hhas], ⟨r2, errs, preAns⟩, ?_, ?_, ?_⟩
        · rw [hrh]
          exact hlast
        · show r2 = maxR
          omega
        · have hr21 : r2 - 1 = maxR - 1 := by omega
          rw [hrf, hrc, hans, hr21]

/-- C3 witness: the amended statement at the counterexample's run. -/
theorem flag_is_verdict_before_final_correction_witness :
    (rag_with_fact_checking (Except.ok [c768]) (AdapterOutcome.ok "1024")
      (fun _ => some ⟨true, 1⟩) (fun _ => AdapterOutcome.ok "768")
      1).has_hallucination = true ∧
    ∃ rec : CorrectionRecord,
      (rag_with_fact_checking (Except.ok [c768]) (AdapterOutcome.ok "1024")
        (fun _ => some ⟨true, 1⟩) (fun _ => AdapterOutcome.ok "768")
        1).correction_history.getLast? = some rec ∧
      rec.round = 1 ∧
      (rag_with_fact_checking (Except.ok [c768]) (AdapterOutcome.ok "1024")
        (fun _ => some ⟨true, 1⟩) (fun _ => AdapterOutcome.ok "768")
        1).final_answer = correct_answer rec.answer_before_correction
          (rag_with_fact_checking (Except.ok [c768]) (AdapterOutcome.ok "1024")
            (fun _ => some ⟨true, 1⟩) (fun _ => AdapterOutcome.ok "768")
            1).retrieved_chunks rec.errors
          ((fun _ => AdapterOutcome.ok "768") (1 - 1)) :=
  flag_is_verdict_before_final_correction (Except.ok [c768])
    (AdapterOutcome.ok "1024") (fun _ => some ⟨true, 1⟩)
    (fun _ => AdapterOutcome.ok "768") 1
    (rag_with_fact_checking (Except.ok [c768]) (AdapterOutcome.ok "1024")
      (fun _ => some ⟨true, 1⟩) (fun _ => AdapterOutcome.ok "768") 1)
    (by decide) (by decide) (by decide)

/-- C4: with an empty retrieval the pipeline short-circuits, for every
round budget and every generator, semantic and corrector oracle: the result
is the fixed refusal answer with empty history and a false flag, and since
the equality holds for all oracles, neither the Answer Generator nor the
Verification Engine influences (or is invoked in) the run. -/
theorem empty_retrieval_short_circuit :
    ∀ (genLLM : AdapterOutcome) (semApi : Nat → Option ApiResult)
      (corrLLM : Nat → AdapterOutcome) (maxR : Nat),
    rag_with_fact_checking (Except.ok []) genLLM semApi corrLLM maxR =
      { final_answer := "抱歉，未找到相关信息，无法回答您的问题。",
        initial_answer := "", retrieved_chunks := [], correction_history := [],
        has_hallucination := false,
        process_log := ["开始检索相关文档块...", "检索完成，返回0个相关文档块",
          "未检索到任何相关文档，无法生成回答"] } :=
  fun _ _ _ _ => rfl

/-- C5: the correction history of every pipeline result has at most
`max_rounds` records; inside the loop the history is append-only (the
incoming history is a prefix of the outgoing one) and grows by exactly one
record per completed correction round (the round-counter increase). -/
theorem correction_history_bounded_append_only :
    (∀ (retOutcome : Except String (List Chunk)) (genLLM : AdapterOutcome)
       (semApi : Nat → Option ApiResult) (corrLLM : Nat → AdapterOutcome)
       (maxR : Nat),
      (rag_with_fact_checking retOutcome genLLM semApi corrLLM
        maxR).correction_history.length ≤ maxR) ∧
    (∀ (chunks : List Chunk) (semApi : Nat → Option ApiResult)
       (corrLLM : Nat → AdapterOutcome) (fuel round : Nat) (ans : String)
       (has0 : Bool) (hist : List CorrectionRecord) (log : List String)
       (ans2 : String) (has2 : Bool) (hist2 : List CorrectionRecord)
       (log2 : List String) (round2 : Nat),
      correction_loop chunks semApi corrLLM fuel round ans has0 hist log =
        Except.ok (ans2, has2, hist2, log2, round2) →
      hist <+: hist2 ∧ hist2.length + round = hist.length + round2 ∧
        round2 - round ≤ fuel) := by
  refine ⟨fun r g s c m => rag_history_le r g s c m, ?_⟩
  intro chunks semApi corrLLM fuel round ans has0 hist log ans2 has2 hist2 log2
    round2 h
  obtain ⟨k, hk1, hk2, hk3, hk4, -⟩ :=
    correction_loop_spec chunks semApi corrLLM fuel round ans has0 hist log
      ans2 has2 hist2 log2 round2 h
  exact ⟨hk4, by omega, by omega⟩

/-- C5 witness: the loop part at an immediately-returning loop. -/
theorem correction_history_bounded_append_only_witness :
    ([] : List CorrectionRecord) <+: [] ∧
    ([] : List CorrectionRecord).length + 0 =
      ([] : List CorrectionRecord).length + 0 ∧ 0 - 0 ≤ 0 :=
  correction_history_bounded_append_only.2 [] (fun _ => none)
    (fun _ => AdapterOutcome.ok "") 0 0 "" false [] [] "" false [] [] 0 rfl

/-- Shape of the pessimistic `has_issue` OR as a proposition. -/
theorem hasOr_iff (l : List String) (c t : ℚ) :
    ((!l.isEmpty || decide (c < t)) = true) ↔ (l ≠ [] ∨ c < t) := by
  cases l <;> simp

/-- C6: every verdict produced by `_combine_verification_results` has
`final_confidence = 0.6 × rule_based + 0.4 × semantic` when the semantic
layer ran and the rule-based confidence alone otherwise, and
`has_issue = true` exactly when the collected issue list is non-empty or
the final confidence is below the hallucination threshold. -/
theorem combination_rule_and_pessimistic_flag (basic : BasicResult)
    (semantic : Option SemanticResult) (chunks : List Chunk)
    (v : VerifyVerdict)
    (h : combine_verification_results basic semantic chunks = Except.ok v) :
    v.confidence_score = (match semantic with
      | some s => (6/10) * basic.confidence + (4/10) * s.confidence
      | none => basic.confidence) ∧
    (v.has_hallucination = true ↔
      (v.error_descriptions ≠ [] ∨ v.confidence_score < hallucination_threshold)) ∧
    v.error_descriptions = basic.issues_found ++ (match semantic with
      | some s => s.semantic_issues
      | none => []) := by
  obtain ⟨ts, hts⟩ := combine_ok_inv basic semantic chunks v h
  rw [combine_eq basic semantic chunks ts hts] at h
  simp only [Except.ok.injEq] at h
  have h1 := congrArg VerifyVerdict.confidence_score h
  have h2 := congrArg VerifyVerdict.has_hallucination h
  have h3 := congrArg VerifyVerdict.error_descriptions h
  clear h hts
  refine ⟨?_, ?_, ?_⟩
  · rw [← h1]
    clear h1 h2 h3
    cases semantic with
    | none => rfl
    | some s =>
      show basic.confidence * (6/10) + s.confidence * (4/10) = _
      ring
  · rw [← h2, ← h3, ← h1]
    clear h1 h2 h3
    cases semantic <;> exact hasOr_iff _ _ _
  · rw [← h3]
    clear h1 h2 h3
    cases semantic <;> rfl

/-- C6 witness: the combination rule at rule-based confidence 0.5 with one
issue and semantic confidence 0.5, over empty evidence. -/
theorem combination_rule_and_pessimistic_flag_witness :
    ((1 : ℚ)/2 * (6/10) + 1/2 * (4/10) = (6 : ℚ)/10 * (1/2) + 4/10 * (1/2)) ∧
    ((true = true) ↔ ((["x"] : List String) ≠ [] ∨
      (1 : ℚ)/2 * (6/10) + 1/2 * (4/10) < hallucination_threshold)) ∧
    (["x"] : List String) = ["x"] :=
  combination_rule_and_pessimistic_flag
    { issues_found := ["x"], checks_count := 3, confidence := 1/2 }
    (some { semantic_issues := [], confidence := 1/2 }) []
    { has_hallucination := true,
      confidence_score := (1 : ℚ)/2 * (6/10) + 1/2 * (4/10),
      error_descriptions := ["x"], evidence_texts := [] } rfl

/-- C7: the code violates the documented bound `confidence ∈ [0, 1]` of
`VerificationResult`.  With a clean rule-based layer (confidence 1) and a
semantic response reading `一致性评分 250` (parsed as 250, divided once by
100 to 2.5), the combined confidence is 0.6 × 1 + 0.4 × 2.5 = 1.6 > 1. -/
theorem combined_confidence_exceeds_one_bug :
    ∃ v, (basic_verification (extract_key_information "768") [c768]).bind
      (fun b => combine_verification_results b
        (some (semantic_verification [c768]
          (some (parse_api_response "一致性评分 250")))) [c768]) = Except.ok v ∧
      v.confidence_score = 8/5 ∧ ¬ (v.confidence_score ≤ 1) :=
  ⟨_, c7_chain, c7_conf,
    show ¬ ((1 : ℚ) * (6/10) + (((250 : ℕ) : ℚ) / 100) * (4/10) ≤ 1) by norm_num⟩

/-- C8: every extracted numeric token that appears verbatim in no evidence
chunk yields exactly one numeric issue (the issue list is exactly the
unmatched tokens, in order, one message each); in particular answer `1024`
— whose only extractable token is the number 1024 — against evidence `768`
yields exactly that one numeric issue and a `has_issue = true` verdict. -/
theorem unmatched_number_yields_one_issue :
    (∀ (answer : String) (chunks : List Chunk),
      (∀ c ∈ chunks, c.content.isSome) →
      verify_numbers (extract_key_information answer).numbers chunks =
        Except.ok (((extract_key_information answer).numbers.filter
          (fun n => chunks.all
            (fun c => !strContains (c.content.getD "") n))).map number_issue)) ∧
    verify_answer "1024" [c768] (some ⟨true, 1⟩) =
      Except.ok (true, [number_issue "1024"]) := by
  refine ⟨fun answer chunks h =>
    verify_numbers_eq (extract_key_information answer).numbers chunks h, ?_⟩
  decide

/-- C8 witness: the general characterization at answer `1024` against the
evidence chunk `768`. -/
theorem unmatched_number_yields_one_issue_witness :
    verify_numbers (extract_key_information "1024").numbers [c768] =
      Except.ok (((extract_key_information "1024").numbers.filter
        (fun n => ([c768] : List Chunk).all
          (fun c => !strContains (c.content.getD "") n))).map number_issue) :=
  unmatched_number_yields_one_issue.1 "1024" [c768] (by decide)

/-- C9: the Controller never lets an exception cross its boundary: every
run either completes with the body's result, or the body stops with an
exception and the returned result is the partially-assembled result with
the system-error answer and the error appended to the process log — the
failure is converted into fields of the result plus a log entry. -/
theorem controller_converts_failures_to_result
    (retOutcome : Except String (List Chunk)) (genLLM : AdapterOutcome)
    (semApi : Nat → Option ApiResult) (corrLLM : Nat → AdapterOutcome)
    (maxR : Nat) :
    (∃ r, rag_body retOutcome genLLM semApi corrLLM maxR = Except.ok r ∧
      rag_with_fact_checking retOutcome genLLM semApi corrLLM maxR = r) ∨
    (∃ e sofar log,
      rag_body retOutcome genLLM semApi corrLLM maxR =
        Except.error (e, sofar, log) ∧
      rag_with_fact_checking retOutcome genLLM semApi corrLLM maxR =
        { sofar with final_answer := "系统出错：" ++ ("流程执行出错：" ++ e),
                     process_log := log ++ ["流程执行出错：" ++ e] }) := by
  cases hb : rag_body retOutcome genLLM semApi corrLLM maxR with
  | ok r =>
    exact Or.inl ⟨r, rfl, by simp [rag_with_fact_checking, hb]⟩
  | error p =>
    obtain ⟨e, sofar, log⟩ := p
    exact Or.inr ⟨e, sofar, log, rfl, by simp [rag_with_fact_checking, hb]⟩

/-- C10 counterexample: an exception after retrieval and generation.  The
error payload (and hence the returned result) keeps `retrieved_chunks` and
`initial_answer` as set before the exception — the result is not the
initialized result with only `final_answer` and the log updated. -/
theorem exception_keeps_earlier_fields_cex :
    rag_body (Except.ok [specChunk]) (AdapterOutcome.ok "1024")
      (fun _ => none) (fun _ => AdapterOutcome.ok "x") 2 =
      Except.error ("KeyError: \x27content\x27",
        { final_answer := "", initial_answer := "1024",
          retrieved_chunks := [specChunk], correction_history := [],
          has_hallucination := false, process_log := [] },
        ["开始检索相关文档块...", "检索完成，返回1个相关文档块", "开始生成初步回答...",
         "初步回答Prompt生成完成", "初步回答生成完成", "开始多轮验证与纠正（最大2轮）...",
         "第1轮验证开始..."]) ∧
    (rag_with_fact_checking (Except.ok [specChunk]) (AdapterOutcome.ok "1024")
      (fun _ => none) (fun _ => AdapterOutcome.ok "x") 2).initial_answer ≠ "" ∧
    (rag_with_fact_checking (Except.ok [specChunk]) (AdapterOutcome.ok "1024")
      (fun _ => none) (fun _ => AdapterOutcome.ok "x") 2).retrieved_chunks ≠ [] := by
  refine ⟨by decide, by decide, by decide⟩

/-- C10 (amended): whenever the body stops with a caught exception, the
returned result is the result-so-far with `final_answer` replaced by the
system-error prefix plus the reason and the log extended; the unresolved
flag is `false` and `correction_history` is empty regardless of any
verdicts computed before the exception — but `retrieved_chunks` and
`initial_answer` keep the values assigned before the exception. -/
theorem exception_result_shape (retOutcome : Except String (List Chunk))
    (genLLM : AdapterOutcome) (semApi : Nat → Option ApiResult)
    (corrLLM : Nat → AdapterOutcome) (maxR : Nat)
    (e : String) (sofar : PipelineResult) (log : List String)
    (h : rag_body retOutcome genLLM semApi corrLLM maxR =
      Except.error (e, sofar, log)) :
    rag_with_fact_checking retOutcome genLLM semApi corrLLM maxR =
      { sofar with final_answer := "系统出错：" ++ ("流程执行出错：" ++ e),
                   process_log := log ++ ["流程执行出错：" ++ e] } ∧
    sofar.correction_history = [] ∧ sofar.has_hallucination = false := by
  obtain ⟨p1, p2, p3⟩ :=
    rag_error_payload retOutcome genLLM semApi corrLLM maxR e sofar log h
  exact ⟨p3, p1, p2⟩

/-- C10 witness: the exception-result shape at the counterexample's run. -/
theorem exception_result_shape_witness :
    rag_with_fact_checking (Except.ok [specChunk]) (AdapterOutcome.ok "1024")
      (fun _ => none) (fun _ => AdapterOutcome.ok "x") 2 =
      { final_answer := "系统出错：" ++ ("流程执行出错：" ++ "KeyError: \x27content\x27"),
        initial_answer := "1024", retrieved_chunks := [specChunk],
        correction_history := [], has_hallucination := false,
        process_log := ["开始检索相关文档块...", "检索完成，返回1个相关文档块",
          "开始生成初步回答...", "初步回答Prompt生成完成", "初步回答生成完成",
          "开始多轮验证与纠正（最大2轮）...", "第1轮验证开始..."] ++
          ["流程执行出错：" ++ "KeyError: \x27content\x27"] } ∧
    ([] : List CorrectionRecord) = [] ∧ false = false :=
  exception_result_shape (Except.ok [specChunk]) (AdapterOutcome.ok "1024")
    (fun _ => none) (fun _ => AdapterOutcome.ok "x") 2 "KeyError: \x27content\x27"
    { final_answer := "", initial_answer := "1024",
      retrieved_chunks := [specChunk], correction_history := [],
      has_hallucination := false, process_log := [] }
    ["开始检索相关文档块...", "检索完成，返回1个相关文档块", "开始生成初步回答...",
     "初步回答Prompt生成完成", "初步回答生成完成", "开始多轮验证与纠正（最大2轮）...",
     "第1轮验证开始..."] (by decide)
